import Mathlib

set_option autoImplicit false

namespace SplitBill

/-- JSON values, as produced by Python's json.loads on the cleaned model
response in bot.py line 153.  Numbers are modelled as rationals: every JSON
numeric literal the bot's prompt asks for (e.g. 12.50) is a finite decimal.
Objects are association lists; json.loads collapses duplicate keys, so parsed
objects have pairwise distinct keys. -/
inductive Json where
  | null : Json
  | bool (b : Bool) : Json
  | num (q : ℚ) : Json
  | str (s : String) : Json
  | arr (elems : List Json) : Json
  | obj (fields : List (String × Json)) : Json

/-- Python truthiness (`bool(x)`) of a JSON value, used by
`if "items" not in bill_data or not bill_data["items"]` (line 155) and by
`if not bill_data` (line 198). -/
def Json.truthy : Json → Bool
  | .null => false
  | .bool b => b
  | .num q => q != 0
  | .str s => s != ""
  | .arr xs => !xs.isEmpty
  | .obj fs => !fs.isEmpty

/-- Bool substring test, modelling Python's `needle in haystack` on strings. -/
def substrB (needle hay : String) : Bool :=
  (List.range (hay.length + 1)).any (fun i => needle.data.isPrefixOf (hay.data.drop i))

/-- Python's `k in x` membership test on a json.loads result: key lookup on a
dict, element equality on a list (a string key only equals string elements),
substring on a string; `in` raises TypeError on numbers, booleans and None. -/
def Json.containsKey : Json → String → Except Unit Bool
  | .obj fs, k => .ok (fs.any (fun p => p.1 == k))
  | .arr xs, k => .ok (xs.any (fun e => match e with | .str s => s == k | _ => false))
  | .str s, k => .ok (substrB k s)
  | _, _ => .error ()

/-- Python's `x[k]` with a string key on a json.loads result: dict lookup
(KeyError when absent), TypeError on every other value (list/str indices must
be integers). -/
def Json.getItem : Json → String → Except Unit Json
  | .obj fs, k =>
    match fs.find? (fun p => p.1 == k) with
    | some p => .ok p.2
    | none => .error ()
  | _, _ => .error ()

/-- Python's `d.get(k, default)`; the call sites (lines 170-171) only reach it
with `bill_data` a dict, the non-dict branch is a dont-care default. -/
def Json.getD : Json → String → Json → Json
  | .obj fs, k, d =>
    match fs.find? (fun p => p.1 == k) with
    | some p => p.2
    | none => d
  | _, _, d => d

/-- The per-user mutable map python-telegram-bot exposes as
`context.user_data`: string keys, JSON-shaped values (the bot only ever
stores the parsed bill under "bill_data"). -/
abbrev UserData := List (String × Json)

/-- `context.user_data.get(k)` (None when absent). -/
def lookupUD (ud : UserData) (k : String) : Option Json :=
  (ud.find? (fun p => p.1 == k)).map (fun p => p.2)

/-- `context.user_data[k] = v`: replace in place when the key exists,
append otherwise (dict insertion order). -/
def setUD (ud : UserData) (k : String) (v : Json) : UserData :=
  if ud.any (fun p => p.1 == k) then
    ud.map (fun p => if p.1 == k then (k, v) else p)
  else ud ++ [(k, v)]

/-- Round-half-to-even of a rational to an integer, the rounding CPython's
fixed-point float formatting performs (exact whenever the value is exactly
representable, which holds for every price in the verified scenarios). -/
def roundHalfEven (x : ℚ) : ℤ :=
  let n : ℤ := ⌊x⌋
  let f : ℚ := x - n
  if f < 1/2 then n
  else if 1/2 < f then n + 1
  else if n % 2 = 0 then n else n + 1

/-- Python's `format(x, ".2f")` on a nonnegative-or-negative numeric value,
modelled over the exact rational. -/
def formatFixed2 (q : ℚ) : String :=
  let c : ℤ := roundHalfEven (q * 100)
  let s : String := if c < 0 then "-" else ""
  let a : ℕ := c.natAbs
  s ++ toString (a / 100) ++ "." ++ (if a % 100 < 10 then "0" else "") ++ toString (a % 100)

/-- `f"{x:.2f}"` on a json.loads value: numbers format, booleans format as
ints (True is 1), everything else raises (TypeError/ValueError). -/
def formatFixed2OfJson : Json → Except Unit String
  | .num q => .ok (formatFixed2 q)
  | .bool b => .ok (if b then "1.00" else "0.00")
  | _ => .error ()

/-- Textual stand-in for CPython's repr of a number coming out of json.loads
(int when the literal had no point, float otherwise); only reachable through
`pyStr` on a non-string item name, which no verified scenario exercises. -/
def pyNumRepr (q : ℚ) : String :=
  if q.den == 1 then toString q.num else toString q.num ++ "/" ++ toString q.den

mutual

/-- Python repr of a json.loads value (dicts and lists render their elements
with repr, strings with quotes). -/
def pyRepr : Json → String
  | .null => "None"
  | .bool b => if b then "True" else "False"
  | .num q => pyNumRepr q
  | .str s => "\x27" ++ s ++ "\x27"
  | .arr xs => "[" ++ pyReprList xs ++ "]"
  | .obj fs => "\x7b" ++ pyReprFields fs ++ "\x7d"

/-- Comma-joined reprs of list elements. -/
def pyReprList : List Json → String
  | [] => ""
  | [x] => pyRepr x
  | x :: y :: xs => pyRepr x ++ ", " ++ pyReprList (y :: xs)

/-- Comma-joined reprs of dict entries. -/
def pyReprFields : List (String × Json) → String
  | [] => ""
  | [(k, v)] => "\x27" ++ k ++ "\x27: " ++ pyRepr v
  | (k, v) :: y :: xs => "\x27" ++ k ++ "\x27: " ++ pyRepr v ++ ", " ++ pyReprFields (y :: xs)

end

/-- Python's `str(x)` as used by f-string interpolation of `item["name"]`
(line 165): strings pass through unquoted, anything else renders via repr. -/
def pyStr : Json → String
  | .str s => s
  | j => pyRepr j

/-- The two ConversationHandler outcomes the bill-split handlers return:
ConversationHandler.END (idle, no active conversation) and the
RECEIVE_ASSIGNMENTS state. -/
inductive ConvState where
  | idle : ConvState
  | awaitingAssignments : ConvState
deriving DecidableEq

/-- Observable result of running one handler: the outbound messages in order,
the per-user data map afterwards, the conversation state returned, and how
many calls to model.generate_content were made. -/
structure StepResult where
  replies : List String
  userData : UserData
  nextState : ConvState
  inferCalls : Nat

/-- Outcome of the fallible part of start_bill_split_convo, seen from the
handler: the photo download (lines 129-133) can raise before any inference
call; model.generate_content (line 147) can raise; otherwise the call
returns text, and `parsed` is the result of json.loads on the cleaned text
(line 153): `.error` when json.loads raises, `.ok j` when it yields `j`. -/
inductive ExtractOutcome where
  | downloadFail : ExtractOutcome
  | inferRaise : ExtractOutcome
  | inferOk (parsed : Except Unit Json) : ExtractOutcome

/-- Outcome of the assignment-stage model.generate_content call (line 238). -/
inductive AssignOutcome where
  | callRaise : AssignOutcome
  | callOk (text : String) : AssignOutcome

def gotPhotoMsg : String := "Got your photo! Reading the bill with AI... 📸"

def noItemsMsg : String :=
  "Sorry, I couldn\x27t find any items on that receipt. Please try a clearer photo."

def extractFailMsg : String :=
  "Sorry, I had trouble reading that receipt. Please try a clearer photo or type /cancel to stop."

def sessionGoneMsg : String :=
  "Oops! Something went wrong. Please send the photo again to start over."

def gotItMsg : String := "Got it! Calculating the split... 🧮"

def calcFailMsg : String :=
  "Sorry, I had trouble with the final calculation. Please try again."

def cancelledMsg : String := "OK, I\x27ve cancelled the current bill split."

def unknownCmdMsg : String :=
  "Sorry, I don\x27t understand that command. Type /start to see what I can do!"

/-- The fallible core of one iteration of the summary loop (line 165):
`item["name"]`, then `item["price"]`, then `:.2f` formatting, in Python's
left-to-right f-string evaluation order.  Returns the rendered name and the
formatted price. -/
def itemCore (it : Json) : Except Unit (String × String) :=
  match it.getItem "name" with
  | .error e => .error e
  | .ok nm =>
    match it.getItem "price" with
    | .error e => .error e
    | .ok pr =>
      match formatFixed2OfJson pr with
      | .error e => .error e
      | .ok prS => .ok (pyStr nm, prS)

/-- One line of the summary item list: `f"{i+1}. {item[name]} - ${item[price]:.2f}\n"`. -/
def itemLine (i : Nat) (it : Json) : Except Unit String :=
  match itemCore it with
  | .error e => .error e
  | .ok p => .ok (toString (i + 1) ++ ". " ++ p.1 ++ " - $" ++ p.2 ++ "\n")

/-- The `for i, item in enumerate(...)` accumulation (lines 163-165), which
stops at the first item whose access or formatting raises. -/
def itemLinesGo (i : Nat) : List Json → Except Unit String
  | [] => .ok ""
  | it :: rest =>
    match itemLine i it with
    | .error e => .error e
    | .ok line =>
      match itemLinesGo (i + 1) rest with
      | .error e => .error e
      | .ok tail => .ok (line ++ tail)

/-- The item-list construction applied to `bill_data["items"]`.  Only a list
iterates item dicts; `enumerate` raises on numbers, and for the truthy
string/dict values that could reach here the per-element `item["name"]`
subscript raises on the first element, so every non-list value errors. -/
def buildItemList : Json → Except Unit String
  | .arr xs => itemLinesGo 0 xs
  | _ => .error ()

/-- The summary message of lines 167-178, given the rendered item list and
the formatted tax and service charge. -/
def summaryMessage (itemList taxS svcS : String) : String :=
  "OK, I\x27ve read the bill! Here\x27s what I found:\n\n" ++
  "**Items:**\n" ++ itemList ++ "\n" ++
  "**Tax:** $" ++ taxS ++ "\n" ++
  "**Service:** $" ++ svcS ++ "\n\n" ++
  "---------------------------------\n" ++
  "**Now, please tell me who had what.**\n" ++
  "Send me a single message like this:\n\n" ++
  "Alice: Burger, Fries\n" ++
  "Bob: Salad\n" ++
  "Everyone: Tacos (to split an item)"

/-- start_bill_split_convo (bot.py lines 121-188).  The acknowledgement is
sent before the try block; every exception inside the block lands in the
handler of lines 185-188 (failure notice, ConversationHandler.END).  Note the
store into user_data (line 160) happens before the summary loop, so failures
after it keep the stored record. -/
def extractStep (ud : UserData) (o : ExtractOutcome) : StepResult :=
  match o with
  | .downloadFail => ⟨[gotPhotoMsg, extractFailMsg], ud, .idle, 0⟩
  | .inferRaise => ⟨[gotPhotoMsg, extractFailMsg], ud, .idle, 1⟩
  | .inferOk (.error _) => ⟨[gotPhotoMsg, extractFailMsg], ud, .idle, 1⟩
  | .inferOk (.ok bill) =>
    match bill.containsKey "items" with
    | .error _ => ⟨[gotPhotoMsg, extractFailMsg], ud, .idle, 1⟩
    | .ok hasItems =>
      match hasItems with
      | false => ⟨[gotPhotoMsg, noItemsMsg], ud, .idle, 1⟩
      | true =>
        match bill.getItem "items" with
        | .error _ => ⟨[gotPhotoMsg, extractFailMsg], ud, .idle, 1⟩
        | .ok itemsVal =>
          match itemsVal.truthy with
          | false => ⟨[gotPhotoMsg, noItemsMsg], ud, .idle, 1⟩
          | true =>
            let ud2 := setUD ud "bill_data" bill
            match buildItemList itemsVal with
            | .error _ => ⟨[gotPhotoMsg, extractFailMsg], ud2, .idle, 1⟩
            | .ok itemList =>
              match formatFixed2OfJson (bill.getD "tax" (.num 0)) with
              | .error _ => ⟨[gotPhotoMsg, extractFailMsg], ud2, .idle, 1⟩
              | .ok taxS =>
                match formatFixed2OfJson (bill.getD "service_charge" (.num 0)) with
                | .error _ => ⟨[gotPhotoMsg, extractFailMsg], ud2, .idle, 1⟩
                | .ok svcS =>
                  ⟨[gotPhotoMsg, summaryMessage itemList taxS svcS], ud2,
                    .awaitingAssignments, 1⟩

/-- Truthiness of `context.user_data.get("bill_data")`, the guard of
line 198 (`if not bill_data`). -/
def billPresent (ud : UserData) : Bool :=
  match lookupUD ud "bill_data" with
  | some v => v.truthy
  | none => false

/-- receive_assignments (bot.py lines 190-247).  With no truthy stored bill
it replies and ends without calling the model; otherwise it makes exactly one
call, forwards the reply text (or the failure notice when the call raises),
then unconditionally runs `context.user_data.clear()` and ends. -/
def receiveAssignments (ud : UserData) (_assignText : String) (o : AssignOutcome) :
    StepResult :=
  match billPresent ud with
  | false => ⟨[sessionGoneMsg], ud, .idle, 0⟩
  | true =>
    match o with
    | .callOk t => ⟨[gotItMsg, t], [], .idle, 1⟩
    | .callRaise => ⟨[gotItMsg, calcFailMsg], [], .idle, 1⟩

/-- cancel_command (bot.py lines 249-255): notify, `user_data.clear()`, END. -/
def cancelStep (_ud : UserData) : StepResult :=
  ⟨[cancelledMsg], [], .idle, 0⟩

/-- unknown_command (bot.py lines 257-259): a reply only, user_data and the
conversation state untouched. -/
def unknownCmdStep (ud : UserData) : StepResult :=
  ⟨[unknownCmdMsg], ud, .idle, 0⟩

/-- A conversation's observable state between inbound events: the
ConversationHandler state for its key (no entry = idle) and the per-user
data map. -/
structure MachineState where
  conv : ConvState
  ud : UserData

/-- One inbound Telegram event for the conversation: a photo (with the
extraction outcome its handler would observe), a non-command text (with the
assignment-call outcome), or the /cancel command. -/
inductive Event where
  | photo (o : ExtractOutcome) : Event
  | text (msg : String) (o : AssignOutcome) : Event
  | cancel : Event

/-- Dispatch of one inbound event, modelling python-telegram-bot's
ConversationHandler together with the handler registrations of main()
(bot.py lines 276-292).  With the default allow_reentry=False, entry points
are consulted only when no conversation is active; with an active
conversation only the current state's handlers and then the fallbacks are
tried, and an unmatched update falls through to the later handlers of the
application (here: the unknown-command handler for commands, nothing for
photos or plain text). -/
def dispatch (st : MachineState) (ev : Event) : MachineState × List String :=
  match st.conv, ev with
  | .idle, .photo o =>
    let r := extractStep st.ud o
    (⟨r.nextState, r.userData⟩, r.replies)
  | .idle, .text _ _ =>
    -- no entry point matches plain text and no other handler does either
    (st, [])
  | .idle, .cancel =>
    -- the conversation is not active, so its /cancel fallback is never
    -- consulted; the update reaches the unknown-command handler instead
    let r := unknownCmdStep st.ud
    (⟨st.conv, r.userData⟩, r.replies)
  | .awaitingAssignments, .photo _ =>
    -- entry points are not re-checked while the conversation is active,
    -- the RECEIVE_ASSIGNMENTS text handler and the /cancel fallback do not
    -- match a photo, and no later handler matches it: the photo is dropped
    (st, [])
  | .awaitingAssignments, .text m o =>
    let r := receiveAssignments st.ud m o
    (⟨r.nextState, r.userData⟩, r.replies)
  | .awaitingAssignments, .cancel =>
    let r := cancelStep st.ud
    (⟨r.nextState, r.userData⟩, r.replies)

/-- Python whitespace, the character class `str.strip()` removes. -/
def pyWs (c : Char) : Bool :=
  c == ' ' || c == '\t' || c == '\n' || c == '\r' || c == '\x0b' || c == '\x0c'

/-- The character SET of `lstrip("\x60\x60\x60json")`: Python lstrip strips
any leading characters drawn from the set of the argument. -/
def fenceChar (c : Char) : Bool :=
  c == '\x60' || c == 'j' || c == 's' || c == 'o' || c == 'n'

/-- The character set of `rstrip("\x60\x60\x60")`. -/
def btChar (c : Char) : Bool := c == '\x60'

/-- Python `lstrip` over a character list. -/
def lstripL (p : Char → Bool) (l : List Char) : List Char := l.dropWhile p

/-- Python `rstrip` over a character list. -/
def rstripL (p : Char → Bool) (l : List Char) : List Char :=
  (l.reverse.dropWhile p).reverse

/-- Python `str.strip()` over a character list. -/
def stripWsL (l : List Char) : List Char := rstripL pyWs (lstripL pyWs l)

/-- The cleaning chain of bot.py line 150 over a character list:
`.strip().lstrip("\x60\x60\x60json").rstrip("\x60\x60\x60")`. -/
def cleanL (l : List Char) : List Char :=
  rstripL btChar (lstripL fenceChar (stripWsL l))

/-- The cleaning of the raw model response (bot.py line 150). -/
def cleanResponse (s : String) : String := String.mk (cleanL s.data)

/-- Removal of surrounding whitespace, which json.loads ignores: two strings
equal up to `trimWs` parse to the same JSON value. -/
def trimWs (s : String) : String := String.mk (stripWsL s.data)

/-- A well-shaped receipt item: a JSON object whose "name" is a string and
whose "price" is a number (the name/price pairs the prompt asks for). -/
def goodItemB (it : Json) : Bool :=
  match it.getItem "name", it.getItem "price" with
  | .ok (.str _), .ok (.num _) => true
  | _, _ => false

/-- An item on which the summary loop of lines 163-165 raises: the "name"
access, the "price" access or the price formatting fails. -/
def badItemB (it : Json) : Bool :=
  match itemCore it with
  | .ok _ => false
  | .error _ => true

/-- A top-level key that is either absent or maps to a number (so that the
`:.2f` interpolation of lines 170-171 cannot raise). -/
def fieldNumOrAbsentF (fs : List (String × Json)) (k : String) : Bool :=
  match fs.find? (fun p => p.1 == k) with
  | some p => match p.2 with | .num _ => true | _ => false
  | none => true

/-- Reference rendering of the numbered item list, which the summary loop
produces on well-shaped items. -/
def renderLines (i : Nat) : List Json → String
  | [] => ""
  | it :: rest =>
    (match itemCore it with
     | .ok p => toString (i + 1) ++ ". " ++ p.1 ++ " - $" ++ p.2 ++ "\n"
     | .error _ => "") ++ renderLines (i + 1) rest

/-- The numeric value `bill_data.get(k, 0.00)` formats on the success path. -/
def numOrZero : Json → ℚ
  | .num q => q
  | _ => 0

/-- The concrete bill of the specification's success scenario: Burger 10.00
and Salad 8.00 with tax 1.00, service charge 2.00, subtotal 18.00. -/
def scenarioItems : List Json :=
  [Json.obj [("name", Json.str "Burger"), ("price", Json.num 10)],
   Json.obj [("name", Json.str "Salad"), ("price", Json.num 8)]]

/-- The parsed object of the specification's success scenario. -/
def scenarioFields : List (String × Json) :=
  [("items", Json.arr scenarioItems), ("tax", Json.num 1),
   ("service_charge", Json.num 2), ("subtotal", Json.num 18)]

theorem dropWhile_append_of_all {α : Type} {p : α → Bool} {l1 l2 : List α}
    (h : ∀ c ∈ l1, p c = true) :
    (l1 ++ l2).dropWhile p = l2.dropWhile p := by
  induction l1 with
  | nil => rfl
  | cons a l ih =>
    have ha : p a = true := h a (List.mem_cons_self a l)
    simp only [List.cons_append, List.dropWhile_cons, ha, if_true]
    exact ih (fun c hc => h c (List.mem_cons_of_mem a hc))

theorem dropWhile_eq_self_of_head {α : Type} {p : α → Bool} {l : List α} {a : α}
    (hh : l.head? = some a) (hp : p a = false) : l.dropWhile p = l := by
  cases l with
  | nil => cases hh
  | cons b t =>
    have hb : b = a := by simpa using hh
    subst hb
    simp [List.dropWhile_cons, hp]

theorem head?_append_left {α : Type} {l1 l2 : List α} {a : α}
    (h : l1.head? = some a) : (l1 ++ l2).head? = some a := by
  cases l1 with
  | nil => cases h
  | cons b t => simpa using h

theorem getLast?_append_right {α : Type} {l1 l2 : List α} {a : α}
    (h : l2.getLast? = some a) : (l1 ++ l2).getLast? = some a := by
  have h2 : l2.reverse.head? = some a := by rw [List.head?_reverse]; exact h
  rw [← List.head?_reverse, List.reverse_append]
  exact head?_append_left h2

theorem rstripL_append_all {p : Char → Bool} {l1 l2 : List Char}
    (h2 : ∀ c ∈ l2, p c = true) : rstripL p (l1 ++ l2) = rstripL p l1 := by
  unfold rstripL
  rw [List.reverse_append, dropWhile_append_of_all]
  intro c hc
  exact h2 c (List.mem_reverse.mp hc)

theorem rstripL_eq_self_of_getLast {p : Char → Bool} {l : List Char} {a : Char}
    (h : l.getLast? = some a) (hp : p a = false) : rstripL p l = l := by
  have hh : l.reverse.head? = some a := by rw [List.head?_reverse]; exact h
  unfold rstripL
  rw [dropWhile_eq_self_of_head hh hp, List.reverse_reverse]

theorem rstripL_eq_self_append {p : Char → Bool} {l1 l2 : List Char} {a : Char}
    (h2 : ∀ c ∈ l2, p c = false) (h1 : l1.getLast? = some a) (hp : p a = false) :
    rstripL p (l1 ++ l2) = l1 ++ l2 := by
  rcases List.eq_nil_or_concat l2 with rfl | ⟨l2', b, rfl⟩
  · rw [List.append_nil]
    exact rstripL_eq_self_of_getLast h1 hp
  · rw [List.concat_eq_append]
    have hb : p b = false := h2 b (by simp)
    have hlast : (l1 ++ (l2' ++ [b])).getLast? = some b := by
      rw [← List.append_assoc]
      exact List.getLast?_concat _
    exact rstripL_eq_self_of_getLast hlast hb

theorem dropWhile_eq_self_of_prefix_false {p : Char → Bool} {l1 l2 : List Char}
    {a : Char} (h1 : ∀ c ∈ l1, p c = false) (h2 : l2.head? = some a)
    (hp : p a = false) : (l1 ++ l2).dropWhile p = l1 ++ l2 := by
  cases l1 with
  | nil => simpa using dropWhile_eq_self_of_head h2 hp
  | cons b t => exact dropWhile_eq_self_of_head (by simp) (h1 b (by simp))

theorem pyWs_cases {c : Char} (h : pyWs c = true) :
    c = ' ' ∨ c = '\t' ∨ c = '\n' ∨ c = '\r' ∨ c = '\x0b' ∨ c = '\x0c' := by
  simp only [pyWs, Bool.or_eq_true, beq_iff_eq] at h
  tauto

theorem btChar_false_of_pyWs {c : Char} (h : pyWs c = true) : btChar c = false := by
  rcases pyWs_cases h with h | h | h | h | h | h <;> subst h <;> decide

theorem fenceChar_false_of_pyWs {c : Char} (h : pyWs c = true) :
    fenceChar c = false := by
  rcases pyWs_cases h with h | h | h | h | h | h <;> subst h <;> decide

/-- The cleaning chain of line 150 applied to whitespace plus optional fence
markup around a chunk that opens with a brace and closes with a brace: the
whitespace and fence pieces are removed and the chunk survives, up to
surrounding whitespace. -/
theorem cleanL_spec {w1 wb wc w2 fo fc mid : List Char}
    (hw1 : ∀ c ∈ w1, pyWs c = true) (hwb : ∀ c ∈ wb, pyWs c = true)
    (hwc : ∀ c ∈ wc, pyWs c = true) (hw2 : ∀ c ∈ w2, pyWs c = true)
    (hfo : fo = [] ∨ ((∀ c ∈ fo, fenceChar c = true) ∧ fo.head? = some '\x60'))
    (hfc : fc = [] ∨ ((∀ c ∈ fc, btChar c = true) ∧ fc.getLast? = some '\x60'))
    (hh : mid.head? = some '\x7b') (hl : mid.getLast? = some '\x7d') :
    stripWsL (cleanL (w1 ++ (fo ++ (wb ++ (mid ++ (wc ++ (fc ++ w2))))))) = mid := by
  have hwcF : ∀ c ∈ wc, btChar c = false := fun c hc => btChar_false_of_pyWs (hwc c hc)
  have hwbF : ∀ c ∈ wb, fenceChar c = false :=
    fun c hc => fenceChar_false_of_pyWs (hwb c hc)
  rcases hfo with rfl | ⟨hfoAll, hfoHead⟩ <;> rcases hfc with rfl | ⟨hfcAll, hfcLast⟩
  · -- no opening fence, no closing fence
    simp only [List.nil_append]
    have s1 : lstripL pyWs (w1 ++ (wb ++ (mid ++ (wc ++ w2)))) = mid ++ (wc ++ w2) := by
      unfold lstripL
      rw [dropWhile_append_of_all hw1, dropWhile_append_of_all hwb]
      exact dropWhile_eq_self_of_head (head?_append_left hh) (by decide)
    have s2 : stripWsL (w1 ++ (wb ++ (mid ++ (wc ++ w2)))) = mid := by
      unfold stripWsL
      rw [s1]
      have hws : ∀ c ∈ wc ++ w2, pyWs c = true := by
        intro c hc
        rcases List.mem_append.mp hc with h | h
        exacts [hwc c h, hw2 c h]
      rw [rstripL_append_all hws]
      exact rstripL_eq_self_of_getLast hl (by decide)
    unfold cleanL
    rw [s2]
    rw [show lstripL fenceChar mid = mid from dropWhile_eq_self_of_head hh (by decide)]
    rw [rstripL_eq_self_of_getLast hl (by decide)]
    unfold stripWsL
    rw [show lstripL pyWs mid = mid from dropWhile_eq_self_of_head hh (by decide)]
    exact rstripL_eq_self_of_getLast hl (by decide)
  · -- no opening fence, closing fence present
    simp only [List.nil_append]
    have s1 : lstripL pyWs (w1 ++ (wb ++ (mid ++ (wc ++ (fc ++ w2))))) =
        mid ++ (wc ++ (fc ++ w2)) := by
      unfold lstripL
      rw [dropWhile_append_of_all hw1, dropWhile_append_of_all hwb]
      exact dropWhile_eq_self_of_head (head?_append_left hh) (by decide)
    have s2 : stripWsL (w1 ++ (wb ++ (mid ++ (wc ++ (fc ++ w2))))) =
        mid ++ (wc ++ fc) := by
      unfold stripWsL
      rw [s1]
      have e : mid ++ (wc ++ (fc ++ w2)) = (mid ++ (wc ++ fc)) ++ w2 := by
        simp [List.append_assoc]
      rw [e, rstripL_append_all hw2]
      have hlast : (mid ++ (wc ++ fc)).getLast? = some '\x60' :=
        getLast?_append_right (getLast?_append_right hfcLast)
      exact rstripL_eq_self_of_getLast hlast (by decide)
    unfold cleanL
    rw [s2]
    rw [show lstripL fenceChar (mid ++ (wc ++ fc)) = mid ++ (wc ++ fc) from
      dropWhile_eq_self_of_head (head?_append_left hh) (by decide)]
    have e2 : mid ++ (wc ++ fc) = (mid ++ wc) ++ fc := by simp [List.append_assoc]
    rw [e2, rstripL_append_all hfcAll]
    rw [rstripL_eq_self_append hwcF hl (by decide)]
    unfold stripWsL
    rw [show lstripL pyWs (mid ++ wc) = mid ++ wc from
      dropWhile_eq_self_of_head (head?_append_left hh) (by decide)]
    rw [rstripL_append_all hwc]
    exact rstripL_eq_self_of_getLast hl (by decide)
  · -- opening fence present, no closing fence
    simp only [List.nil_append]
    have s1 : lstripL pyWs (w1 ++ (fo ++ (wb ++ (mid ++ (wc ++ w2))))) =
        fo ++ (wb ++ (mid ++ (wc ++ w2))) := by
      unfold lstripL
      rw [dropWhile_append_of_all hw1]
      exact dropWhile_eq_self_of_head (head?_append_left hfoHead) (by decide)
    have s2 : stripWsL (w1 ++ (fo ++ (wb ++ (mid ++ (wc ++ w2))))) =
        fo ++ (wb ++ mid) := by
      unfold stripWsL
      rw [s1]
      have e : fo ++ (wb ++ (mid ++ (wc ++ w2))) = ((fo ++ (wb ++ mid)) ++ wc) ++ w2 := by
        simp [List.append_assoc]
      rw [e, rstripL_append_all hw2, rstripL_append_all hwc]
      have hlast : (fo ++ (wb ++ mid)).getLast? = some '\x7d' :=
        getLast?_append_right (getLast?_append_right hl)
      exact rstripL_eq_self_of_getLast hlast (by decide)
    unfold cleanL
    rw [s2]
    rw [show lstripL fenceChar (fo ++ (wb ++ mid)) = wb ++ mid from by
      unfold lstripL
      rw [dropWhile_append_of_all hfoAll]
      exact dropWhile_eq_self_of_prefix_false hwbF hh (by decide)]
    rw [rstripL_eq_self_of_getLast (getLast?_append_right hl) (by decide)]
    unfold stripWsL
    rw [show lstripL pyWs (wb ++ mid) = mid from by
      unfold lstripL
      rw [dropWhile_append_of_all hwb]
      exact dropWhile_eq_self_of_head hh (by decide)]
    exact rstripL_eq_self_of_getLast hl (by decide)
  · -- both fences present
    have s1 : lstripL pyWs (w1 ++ (fo ++ (wb ++ (mid ++ (wc ++ (fc ++ w2)))))) =
        fo ++ (wb ++ (mid ++ (wc ++ (fc ++ w2)))) := by
      unfold lstripL
      rw [dropWhile_append_of_all hw1]
      exact dropWhile_eq_self_of_head (head?_append_left hfoHead) (by decide)
    have s2 : stripWsL (w1 ++ (fo ++ (wb ++ (mid ++ (wc ++ (fc ++ w2)))))) =
        fo ++ (wb ++ (mid ++ (wc ++ fc))) := by
      unfold stripWsL
      rw [s1]
      have e : fo ++ (wb ++ (mid ++ (wc ++ (fc ++ w2)))) =
          (fo ++ (wb ++ (mid ++ (wc ++ fc)))) ++ w2 := by
        simp [List.append_assoc]
      rw [e, rstripL_append_all hw2]
      have hlast : (fo ++ (wb ++ (mid ++ (wc ++ fc)))).getLast? = some '\x60' :=
        getLast?_append_right (getLast?_append_right
          (getLast?_append_right (getLast?_append_right hfcLast)))
      exact rstripL_eq_self_of_getLast hlast (by decide)
    unfold cleanL
    rw [s2]
    rw [show lstripL fenceChar (fo ++ (wb ++ (mid ++ (wc ++ fc)))) =
        wb ++ (mid ++ (wc ++ fc)) from by
      unfold lstripL
      rw [dropWhile_append_of_all hfoAll]
      exact dropWhile_eq_self_of_prefix_false hwbF (head?_append_left hh) (by decide)]
    have e2 : wb ++ (mid ++ (wc ++ fc)) = (wb ++ (mid ++ wc)) ++ fc := by
      simp [List.append_assoc]
    rw [e2, rstripL_append_all hfcAll]
    have e3 : wb ++ (mid ++ wc) = (wb ++ mid) ++ wc := by simp [List.append_assoc]
    rw [e3, rstripL_eq_self_append hwcF (getLast?_append_right hl) (by decide)]
    unfold stripWsL
    rw [show lstripL pyWs ((wb ++ mid) ++ wc) = mid ++ wc from by
      unfold lstripL
      rw [List.append_assoc, dropWhile_append_of_all hwb]
      exact dropWhile_eq_self_of_head (head?_append_left hh) (by decide)]
    rw [rstripL_append_all hwc]
    exact rstripL_eq_self_of_getLast hl (by decide)

theorem itemCore_of_good {it : Json} (h : goodItemB it = true) :
    ∃ nm q, it.getItem "name" = .ok (.str nm) ∧ it.getItem "price" = .ok (.num q) ∧
      itemCore it = .ok (nm, formatFixed2 q) := by
  unfold goodItemB at h
  split at h
  case _ nm q hs hp =>
    refine ⟨nm, q, hs, hp, ?_⟩
    unfold itemCore
    rw [hs, hp]
    rfl
  case _ => cases h

theorem itemLinesGo_of_good : ∀ (l : List Json) (i : Nat),
    (∀ it ∈ l, goodItemB it = true) → itemLinesGo i l = .ok (renderLines i l) := by
  intro l
  induction l with
  | nil => intro i _; rfl
  | cons a rest ih =>
    intro i h
    obtain ⟨nm, q, _, _, hc⟩ := itemCore_of_good (h a (List.mem_cons_self a rest))
    have hline : itemLine i a =
        .ok (toString (i + 1) ++ ". " ++ nm ++ " - $" ++ formatFixed2 q ++ "\n") := by
      unfold itemLine
      rw [hc]
    have hrest := ih (i + 1) (fun x hx => h x (List.mem_cons_of_mem a hx))
    have hrender : renderLines i (a :: rest) =
        (toString (i + 1) ++ ". " ++ nm ++ " - $" ++ formatFixed2 q ++ "\n") ++
          renderLines (i + 1) rest := by
      show (match itemCore a with
            | .ok p => toString (i + 1) ++ ". " ++ p.1 ++ " - $" ++ p.2 ++ "\n"
            | .error _ => "") ++ renderLines (i + 1) rest = _
      rw [hc]
    rw [hrender]
    show (match itemLine i a with
          | .error e => Except.error e
          | .ok line =>
            match itemLinesGo (i + 1) rest with
            | .error e => Except.error e
            | .ok tail => Except.ok (line ++ tail)) = _
    rw [hline, hrest]

theorem itemLinesGo_of_bad : ∀ (l : List Json) (i : Nat),
    (∃ it ∈ l, badItemB it = true) → itemLinesGo i l = .error () := by
  intro l
  induction l with
  | nil =>
    intro i h
    rcases h with ⟨it, hmem, _⟩
    cases hmem
  | cons a rest ih =>
    intro i h
    show (match itemLine i a with
          | .error e => Except.error e
          | .ok line =>
            match itemLinesGo (i + 1) rest with
            | .error e => Except.error e
            | .ok tail => Except.ok (line ++ tail)) = Except.error ()
    cases hc : itemCore a with
    | error e =>
      have hline : itemLine i a = .error e := by
        unfold itemLine
        rw [hc]
      rw [hline]
    | ok v =>
      have hline : itemLine i a =
          .ok (toString (i + 1) ++ ". " ++ v.1 ++ " - $" ++ v.2 ++ "\n") := by
        unfold itemLine
        rw [hc]
      rcases h with ⟨it, hmem, hbad⟩
      rcases List.mem_cons.mp hmem with rfl | hmem'
      · have hgood : badItemB it = false := by
          unfold badItemB
          rw [hc]
        rw [hgood] at hbad
        exact absurd hbad Bool.false_ne_true
      · rw [hline, ih (i + 1) ⟨it, hmem', hbad⟩]

theorem containsKey_of_find {fs : List (String × Json)} {k : String}
    {p : String × Json} (hf : fs.find? (fun q => q.1 == k) = some p) :
    Json.containsKey (.obj fs) k = .ok true := by
  have hm := List.mem_of_find?_eq_some hf
  have hp := List.find?_some hf
  show Except.ok (fs.any fun q => q.1 == k) = Except.ok true
  congr 1
  rw [List.any_eq_true]
  exact ⟨p, hm, hp⟩

theorem containsKey_of_find_none {fs : List (String × Json)} {k : String}
    (hf : fs.find? (fun q => q.1 == k) = none) :
    Json.containsKey (.obj fs) k = .ok false := by
  show Except.ok (fs.any fun q => q.1 == k) = Except.ok false
  congr 1
  rw [Bool.eq_false_iff]
  intro hta
  rcases List.any_eq_true.mp hta with ⟨x, hx, hpx⟩
  exact (List.find?_eq_none.mp hf x hx) hpx

theorem find_of_getItem {fs : List (String × Json)} {k : String} {v : Json}
    (h : Json.getItem (.obj fs) k = .ok v) :
    ∃ p, fs.find? (fun q => q.1 == k) = some p ∧ p.2 = v := by
  have h' : (match fs.find? (fun q => q.1 == k) with
      | some p => Except.ok p.2
      | none => Except.error ()) = Except.ok v := h
  cases hf : fs.find? (fun q => q.1 == k) with
  | none => rw [hf] at h'; cases h'
  | some p =>
    rw [hf] at h'
    cases h'
    exact ⟨p, rfl, rfl⟩

theorem formatGetD_ok {fs : List (String × Json)} {k : String}
    (h : fieldNumOrAbsentF fs k = true) :
    formatFixed2OfJson (Json.getD (.obj fs) k (.num 0)) =
      .ok (formatFixed2 (numOrZero (Json.getD (.obj fs) k (.num 0)))) := by
  unfold fieldNumOrAbsentF at h
  cases hf : fs.find? (fun p => p.1 == k) with
  | none =>
    have hgd : Json.getD (.obj fs) k (.num 0) = Json.num 0 := by
      show (match fs.find? (fun p => p.1 == k) with
            | some p => p.2
            | none => Json.num 0) = Json.num 0
      rw [hf]
    rw [hgd]
    rfl
  | some p =>
    have h2 : (match p.2 with | Json.num _ => true | _ => false) = true := by
      rw [hf] at h
      exact h
    have hgd : Json.getD (.obj fs) k (.num 0) = p.2 := by
      show (match fs.find? (fun p => p.1 == k) with
            | some p => p.2
            | none => Json.num 0) = p.2
      rw [hf]
    rw [hgd]
    cases hq : p.2 with
    | num q => rfl
    | null => rw [hq] at h2; exact absurd h2 Bool.false_ne_true
    | bool b => rw [hq] at h2; exact absurd h2 Bool.false_ne_true
    | str s => rw [hq] at h2; exact absurd h2 Bool.false_ne_true
    | arr xs => rw [hq] at h2; exact absurd h2 Bool.false_ne_true
    | obj gs => rw [hq] at h2; exact absurd h2 Bool.false_ne_true

/-- Claim C2 — after every assignment-stage attempt in which a (truthy)
BillRecord is present in the session, whether the inference call succeeds or
raises, the per-conversation session is cleared and the handler returns
ConversationHandler.END (idle). -/
theorem assignment_always_clears_session (ud : UserData) (t : String)
    (o : AssignOutcome) (v : Json)
    (hv : lookupUD ud "bill_data" = some v) (htr : v.truthy = true) :
    (receiveAssignments ud t o).userData = [] ∧
      (receiveAssignments ud t o).nextState = .idle := by
  have hbp : billPresent ud = true := by
    unfold billPresent
    rw [hv]
    exact htr
  unfold receiveAssignments
  rw [hbp]
  cases o with
  | callOk t2 => exact ⟨rfl, rfl⟩
  | callRaise => exact ⟨rfl, rfl⟩

/-- Witness for C2 at a concrete session holding a bill. -/
theorem assignment_always_clears_session_witness :
    lookupUD [("bill_data", Json.obj [("items", Json.arr [Json.str "Burger"])])]
        "bill_data" = some (Json.obj [("items", Json.arr [Json.str "Burger"])]) ∧
    (Json.obj [("items", Json.arr [Json.str "Burger"])]).truthy = true ∧
    ((receiveAssignments
        [("bill_data", Json.obj [("items", Json.arr [Json.str "Burger"])])]
        "Alice: Burger" (.callOk "done")).userData = [] ∧
      (receiveAssignments
        [("bill_data", Json.obj [("items", Json.arr [Json.str "Burger"])])]
        "Alice: Burger" (.callOk "done")).nextState = .idle) :=
  ⟨rfl, rfl,
    assignment_always_clears_session
      [("bill_data", Json.obj [("items", Json.arr [Json.str "Burger"])])]
      "Alice: Burger" (.callOk "done")
      (Json.obj [("items", Json.arr [Json.str "Burger"])]) rfl rfl⟩

/-- Claim C3 — a text message handled by the assignment stage with no
BillRecord stored makes no inference call, tells the user to resend the
photo, and returns to idle with the session unchanged. -/
theorem assignment_without_bill_no_call (ud : UserData) (t : String)
    (o : AssignOutcome) (h : lookupUD ud "bill_data" = none) :
    receiveAssignments ud t o = ⟨[sessionGoneMsg], ud, .idle, 0⟩ := by
  have hbp : billPresent ud = false := by
    unfold billPresent
    rw [h]
  unfold receiveAssignments
  rw [hbp]

/-- Witness for C3 at the empty session. -/
theorem assignment_without_bill_no_call_witness :
    lookupUD [] "bill_data" = none ∧
    receiveAssignments [] "Alice: Burger" (.callOk "done") =
      ⟨[sessionGoneMsg], [], .idle, 0⟩ :=
  ⟨rfl, assignment_without_bill_no_call [] "Alice: Burger" (.callOk "done") rfl⟩

/-- Claim C9 — the assignment stage's post-call cleanup and the cancel
handler both run `user_data.clear()`: they erase the entire per-user map,
including keys other than "bill_data". -/
theorem cleanup_and_cancel_clear_whole_map (ud : UserData) (t : String)
    (o : AssignOutcome) (v : Json)
    (hv : lookupUD ud "bill_data" = some v) (htr : v.truthy = true) :
    (receiveAssignments ud t o).userData = [] ∧ (cancelStep ud).userData = [] := by
  have hbp : billPresent ud = true := by
    unfold billPresent
    rw [hv]
    exact htr
  refine ⟨?_, rfl⟩
  unfold receiveAssignments
  rw [hbp]
  cases o with
  | callOk t2 => rfl
  | callRaise => rfl

/-- Witness for C9 at a session that also holds an unrelated key. -/
theorem cleanup_and_cancel_clear_whole_map_witness :
    lookupUD [("bill_data", Json.obj [("items", Json.arr [Json.str "Burger"])]),
        ("note", Json.str "keep")] "bill_data" =
      some (Json.obj [("items", Json.arr [Json.str "Burger"])]) ∧
    ((receiveAssignments
        [("bill_data", Json.obj [("items", Json.arr [Json.str "Burger"])]),
          ("note", Json.str "keep")] "Bob: Salad" .callRaise).userData = [] ∧
      (cancelStep [("bill_data", Json.obj [("items", Json.arr [Json.str "Burger"])]),
        ("note", Json.str "keep")]).userData = []) :=
  ⟨rfl,
    cleanup_and_cancel_clear_whole_map
      [("bill_data", Json.obj [("items", Json.arr [Json.str "Burger"])]),
        ("note", Json.str "keep")]
      "Bob: Salad" .callRaise
      (Json.obj [("items", Json.arr [Json.str "Burger"])]) rfl rfl⟩

/-- Counterexample to C4 as stated: when the parsed bill has a non-empty
items list but the first item has no "name" key, the extraction stage fails
(failure notice, back to idle) yet the BillRecord was already stored at
line 160, so the session is NOT left empty. -/
theorem extraction_late_failure_keeps_session_cex :
    (extractStep [] (.inferOk (.ok (Json.obj [("items", Json.arr [Json.obj []])])))).replies
        = [gotPhotoMsg, extractFailMsg] ∧
    (extractStep [] (.inferOk (.ok (Json.obj [("items", Json.arr [Json.obj []])])))).nextState
        = ConvState.idle ∧
    (extractStep [] (.inferOk (.ok (Json.obj [("items", Json.arr [Json.obj []])])))).userData
        ≠ [] := by
  refine ⟨rfl, rfl, fun h => ?_⟩
  exact List.cons_ne_nil _ _ h

/-- Claim C4 (amended) — when extraction fails with an exception raised
before the BillRecord is stored (photo download, the inference call, or
json.loads on the cleaned text), the user is told to retry with a clearer
photo, the state returns to idle, and the session is untouched.  (An
exception raised after the line-160 store — e.g. while formatting the
summary — instead leaves the just-stored BillRecord in the session.) -/
theorem extraction_pre_store_failure_leaves_session (ud : UserData)
    (o : ExtractOutcome)
    (h : o = .downloadFail ∨ o = .inferRaise ∨ o = .inferOk (.error ())) :
    (extractStep ud o).replies = [gotPhotoMsg, extractFailMsg] ∧
    (extractStep ud o).nextState = .idle ∧
    (extractStep ud o).userData = ud := by
  rcases h with rfl | rfl | rfl <;> exact ⟨rfl, rfl, rfl⟩

/-- Witness for the amended C4: the inference call raising over a session
with unrelated content. -/
theorem extraction_pre_store_failure_leaves_session_witness :
    (ExtractOutcome.inferRaise = ExtractOutcome.downloadFail ∨
      ExtractOutcome.inferRaise = ExtractOutcome.inferRaise ∨
      ExtractOutcome.inferRaise = ExtractOutcome.inferOk (.error ())) ∧
    ((extractStep [("note", Json.str "keep")] .inferRaise).replies =
        [gotPhotoMsg, extractFailMsg] ∧
      (extractStep [("note", Json.str "keep")] .inferRaise).nextState = .idle ∧
      (extractStep [("note", Json.str "keep")] .inferRaise).userData =
        [("note", Json.str "keep")]) :=
  ⟨Or.inr (Or.inl rfl),
    extraction_pre_store_failure_leaves_session [("note", Json.str "keep")]
      .inferRaise (Or.inr (Or.inl rfl))⟩

/-- Counterexample to C6 as stated: a photo arriving while the conversation
is AWAITING_ASSIGNMENTS is dropped — the pending session entry is kept (it
still holds the old bill, which differs from the new photo's bill), no
extraction runs and no reply is sent. -/
theorem second_photo_overwrite_cex :
    dispatch
        ⟨.awaitingAssignments,
          [("bill_data", Json.obj [("items", Json.arr [Json.str "old"])])]⟩
        (.photo (.inferOk (.ok (Json.obj [("items", Json.arr [Json.str "new"])])))) =
      (⟨.awaitingAssignments,
        [("bill_data", Json.obj [("items", Json.arr [Json.str "old"])])]⟩, []) ∧
    (Json.obj [("items", Json.arr [Json.str "old"])] : Json) ≠
      Json.obj [("items", Json.arr [Json.str "new"])] := by
  refine ⟨rfl, fun h => ?_⟩
  simp at h

/-- Claim C6 (amended) — a second inbound photo while AWAITING_ASSIGNMENTS
is ignored: with python-telegram-bot's default allow_reentry=False the entry
points are not re-checked while the conversation is active, no state handler
or fallback matches a photo, and no later handler does either, so state and
session are unchanged (no last-photo-wins overwrite). -/
theorem second_photo_ignored_while_awaiting (ud : UserData) (o : ExtractOutcome) :
    dispatch ⟨.awaitingAssignments, ud⟩ (.photo o) =
      (⟨.awaitingAssignments, ud⟩, []) := rfl

/-- Counterexample to C7 as stated: a failing extraction can leave a stale
BillRecord in the session while the conversation is idle (first conjunct:
reachability), and the cancel command issued in idle is answered by the
unknown-command handler without clearing that session. -/
theorem cancel_in_idle_keeps_stale_session_cex :
    (dispatch ⟨.idle, []⟩
        (.photo (.inferOk (.ok (Json.obj [("items", Json.arr [Json.obj []])]))))).1 =
      ⟨.idle, [("bill_data", Json.obj [("items", Json.arr [Json.obj []])])]⟩ ∧
    (dispatch ⟨.idle, [("bill_data", Json.obj [("items", Json.arr [Json.obj []])])]⟩
        Event.cancel).1.ud ≠ [] := by
  refine ⟨rfl, fun h => ?_⟩
  exact List.cons_ne_nil _ _ h

/-- Claim C7 (amended) — cancel during AWAITING_ASSIGNMENTS clears the
session and yields idle, and a second cancel (reaching the unknown-command
handler, since no conversation is active) leaves the same empty-session idle
state; but in idle the cancel command never reaches the conversation's
cancel handler, so a stale session left by a failed extraction is not
cleared there. -/
theorem cancel_from_awaiting_idempotent (ud : UserData) :
    dispatch ⟨.awaitingAssignments, ud⟩ .cancel = (⟨.idle, []⟩, [cancelledMsg]) ∧
    dispatch ⟨.idle, []⟩ .cancel = (⟨.idle, []⟩, [unknownCmdMsg]) := ⟨rfl, rfl⟩

/-- Claim C5 — an inference output that parses as a JSON object with a
missing "items" key or an empty items list stores nothing (the session is
unchanged, in particular an empty session stays empty), notifies the user
that no items were found, and ends the conversation back in idle. -/
theorem extraction_no_items_leaves_session (ud : UserData)
    (fs : List (String × Json))
    (h : fs.find? (fun p => p.1 == "items") = none ∨
         Json.getItem (.obj fs) "items" = .ok (.arr [])) :
    extractStep ud (.inferOk (.ok (.obj fs))) =
      ⟨[gotPhotoMsg, noItemsMsg], ud, .idle, 1⟩ := by
  rcases h with hf | hi
  · have hck := containsKey_of_find_none hf
    simp only [extractStep, hck]
  · obtain ⟨p, hf, _⟩ := find_of_getItem hi
    have hck := containsKey_of_find hf
    have htr : Json.truthy (.arr []) = false := rfl
    simp only [extractStep, hck, hi, htr]

/-- Witness for C5: an object whose items list is empty. -/
theorem extraction_no_items_leaves_session_witness :
    (List.find? (fun p => p.1 == "items") [("tax", Json.num 1)] = none ∨
      Json.getItem (.obj [("tax", Json.num 1)]) "items" = .ok (.arr [])) ∧
    extractStep [] (.inferOk (.ok (.obj [("tax", Json.num 1)]))) =
      ⟨[gotPhotoMsg, noItemsMsg], [], .idle, 1⟩ :=
  ⟨Or.inl rfl,
    extraction_no_items_leaves_session [] [("tax", Json.num 1)] (Or.inl rfl)⟩

/-- Claim C10 — a parsed extraction result with a non-empty items list where
some item lacks "name" or has a "price" that cannot be formatted as a number
does not escape the handler: the except branch of lines 185-188 replies the
failure notice and the conversation ends in idle, not AWAITING_ASSIGNMENTS
(the record stored at line 160 stays behind, which C10 does not constrain). -/
theorem malformed_item_fails_safely (ud : UserData) (fs : List (String × Json))
    (items : List Json)
    (hitems : Json.getItem (.obj fs) "items" = .ok (.arr items))
    (hne : items.isEmpty = false)
    (hbad : ∃ it ∈ items, badItemB it = true) :
    extractStep ud (.inferOk (.ok (.obj fs))) =
      ⟨[gotPhotoMsg, extractFailMsg], setUD ud "bill_data" (.obj fs), .idle, 1⟩ := by
  obtain ⟨p, hf, _⟩ := find_of_getItem hitems
  have hck := containsKey_of_find hf
  have htr : Json.truthy (.arr items) = true := by
    show (!items.isEmpty) = true
    rw [hne]
    rfl
  have hbuild : buildItemList (.arr items) = .error () :=
    itemLinesGo_of_bad items 0 hbad
  simp only [extractStep, hck, hitems, htr, hbuild]

/-- Witness for C10: a non-empty items list whose only item has a name but
no price. -/
theorem malformed_item_fails_safely_witness :
    Json.getItem (.obj [("items", Json.arr [Json.obj [("name", Json.str "Burger")]])])
        "items" = .ok (.arr [Json.obj [("name", Json.str "Burger")]]) ∧
    ([Json.obj [("name", Json.str "Burger")]] : List Json).isEmpty = false ∧
    (∃ it ∈ ([Json.obj [("name", Json.str "Burger")]] : List Json),
      badItemB it = true) ∧
    extractStep [] (.inferOk (.ok
        (.obj [("items", Json.arr [Json.obj [("name", Json.str "Burger")]])]))) =
      ⟨[gotPhotoMsg, extractFailMsg],
        setUD [] "bill_data"
          (.obj [("items", Json.arr [Json.obj [("name", Json.str "Burger")]])]),
        .idle, 1⟩ :=
  ⟨rfl, rfl, ⟨Json.obj [("name", Json.str "Burger")], List.mem_cons_self _ _, rfl⟩,
    malformed_item_fails_safely [] [("items", Json.arr [Json.obj [("name", Json.str "Burger")]])]
      [Json.obj [("name", Json.str "Burger")]] rfl rfl
      ⟨Json.obj [("name", Json.str "Burger")], List.mem_cons_self _ _, rfl⟩⟩

/-- Claim C1 — for an inference response whose cleaned text parses as a JSON
object with a non-empty items list of name/price pairs (and numeric or
absent tax and service charge, per the BillRecord shape), extraction stores
exactly that parsed object under "bill_data", replies with the summary
(numbered item lines with prices, then tax and service charge), and returns
RECEIVE_ASSIGNMENTS. -/
theorem extraction_success_stores_and_advances (ud : UserData)
    (fs : List (String × Json)) (items : List Json)
    (hitems : Json.getItem (.obj fs) "items" = .ok (.arr items))
    (hne : items.isEmpty = false)
    (hgood : ∀ it ∈ items, goodItemB it = true)
    (htax : fieldNumOrAbsentF fs "tax" = true)
    (hsvc : fieldNumOrAbsentF fs "service_charge" = true) :
    extractStep ud (.inferOk (.ok (.obj fs))) =
      ⟨[gotPhotoMsg,
        summaryMessage (renderLines 0 items)
          (formatFixed2 (numOrZero (Json.getD (.obj fs) "tax" (.num 0))))
          (formatFixed2 (numOrZero (Json.getD (.obj fs) "service_charge" (.num 0))))],
        setUD ud "bill_data" (.obj fs), .awaitingAssignments, 1⟩ := by
  obtain ⟨p, hf, _⟩ := find_of_getItem hitems
  have hck := containsKey_of_find hf
  have htr : Json.truthy (.arr items) = true := by
    show (!items.isEmpty) = true
    rw [hne]
    rfl
  have hbuild : buildItemList (.arr items) = .ok (renderLines 0 items) :=
    itemLinesGo_of_good items 0 hgood
  have htaxF := formatGetD_ok htax
  have hsvcF := formatGetD_ok hsvc
  simp only [extractStep, hck, hitems, htr, hbuild, htaxF, hsvcF]

/-- Witness for C1 at the specification's success scenario (Burger 10.00,
Salad 8.00, tax 1.00, service 2.00). -/
theorem extraction_success_stores_and_advances_witness :
    Json.getItem (.obj scenarioFields) "items" = .ok (.arr scenarioItems) ∧
    scenarioItems.isEmpty = false ∧
    (∀ it ∈ scenarioItems, goodItemB it = true) ∧
    fieldNumOrAbsentF scenarioFields "tax" = true ∧
    fieldNumOrAbsentF scenarioFields "service_charge" = true ∧
    extractStep [] (.inferOk (.ok (.obj scenarioFields))) =
      ⟨[gotPhotoMsg,
        summaryMessage (renderLines 0 scenarioItems)
          (formatFixed2 (numOrZero (Json.getD (.obj scenarioFields) "tax" (.num 0))))
          (formatFixed2 (numOrZero
            (Json.getD (.obj scenarioFields) "service_charge" (.num 0))))],
        setUD [] "bill_data" (.obj scenarioFields), .awaitingAssignments, 1⟩ :=
  ⟨rfl, rfl, by decide, rfl, rfl,
    extraction_success_stores_and_advances [] scenarioFields scenarioItems
      rfl rfl (by decide) rfl rfl⟩

/-- Claim C8 — a raw inference response that is a JSON object (a chunk
opening and closing with braces) optionally surrounded by code-fence markup
(an opening fence of three backticks, optionally with the json language
tag, and/or a closing fence of three backticks) and whitespace is cleaned by
line 150 to the object's text up to surrounding whitespace, which json.loads
ignores — so the cleaned text parses as exactly that JSON object. -/
theorem clean_recovers_fenced_json_object (w1 wb wc w2 fo fc s : String)
    (hw1 : ∀ c ∈ w1.data, pyWs c = true) (hwb : ∀ c ∈ wb.data, pyWs c = true)
    (hwc : ∀ c ∈ wc.data, pyWs c = true) (hw2 : ∀ c ∈ w2.data, pyWs c = true)
    (hfo : fo = "" ∨ fo = "```" ∨ fo = "```json")
    (hfc : fc = "" ∨ fc = "```")
    (hh : s.data.head? = some '\x7b') (hl : s.data.getLast? = some '\x7d') :
    trimWs (cleanResponse (w1 ++ fo ++ wb ++ s ++ wc ++ fc ++ w2)) = s := by
  have hfo' : fo.data = [] ∨
      ((∀ c ∈ fo.data, fenceChar c = true) ∧ fo.data.head? = some '\x60') := by
    rcases hfo with rfl | rfl | rfl
    · exact Or.inl rfl
    · exact Or.inr ⟨by decide, by decide⟩
    · exact Or.inr ⟨by decide, by decide⟩
  have hfc' : fc.data = [] ∨
      ((∀ c ∈ fc.data, btChar c = true) ∧ fc.data.getLast? = some '\x60') := by
    rcases hfc with rfl | rfl
    · exact Or.inl rfl
    · exact Or.inr ⟨by decide, by decide⟩
  have key := cleanL_spec hw1 hwb hwc hw2 hfo' hfc' hh hl
  have hbig : (w1 ++ fo ++ wb ++ s ++ wc ++ fc ++ w2).data =
      w1.data ++ (fo.data ++ (wb.data ++ (s.data ++ (wc.data ++ (fc.data ++ w2.data))))) := by
    simp [String.data_append, List.append_assoc]
  show String.mk (stripWsL (cleanL ((w1 ++ fo ++ wb ++ s ++ wc ++ fc ++ w2).data))) = s
  rw [hbig, key]

/-- Witness for C8: a fenced response around a small bill object. -/
theorem clean_recovers_fenced_json_object_witness :
    (∀ c ∈ (" ").data, pyWs c = true) ∧ (∀ c ∈ ("\n").data, pyWs c = true) ∧
    (∀ c ∈ ("\n").data, pyWs c = true) ∧ (∀ c ∈ ("  ").data, pyWs c = true) ∧
    (("```json" : String) = "" ∨ ("```json" : String) = "```" ∨
      ("```json" : String) = "```json") ∧
    (("```" : String) = "" ∨ ("```" : String) = "```") ∧
    ("\x7b\"items\": [\x7b\"name\": \"Burger\", \"price\": 10.0\x7d]\x7d" : String).data.head?
        = some '\x7b' ∧
    ("\x7b\"items\": [\x7b\"name\": \"Burger\", \"price\": 10.0\x7d]\x7d" : String).data.getLast?
        = some '\x7d' ∧
    trimWs (cleanResponse
        (" " ++ "```json" ++ "\n" ++
          "\x7b\"items\": [\x7b\"name\": \"Burger\", \"price\": 10.0\x7d]\x7d" ++
          "\n" ++ "```" ++ "  ")) =
      "\x7b\"items\": [\x7b\"name\": \"Burger\", \"price\": 10.0\x7d]\x7d" :=
  ⟨by decide, by decide, by decide, by decide,
    Or.inr (Or.inr rfl), Or.inr rfl, by decide, by decide,
    clean_recovers_fenced_json_object " " "\n" "\n" "  " "```json" "```"
      "\x7b\"items\": [\x7b\"name\": \"Burger\", \"price\": 10.0\x7d]\x7d"
      (by decide) (by decide) (by decide) (by decide)
      (Or.inr (Or.inr rfl)) (Or.inr rfl) (by decide) (by decide)⟩

end SplitBill
